import Mathlib

/-!
Shallow embedding of the Noteblock Music Maker sources.

The repository is a browser step sequencer: a sparse note store
(an array of records with fields tick, pitch, inst), a playback clock driven
by a periodic interval callback, and an export generator that emits a
JavaScript module with an id, a speed, an instrument table, a data list of
triples and a getNotesAt query.  The sources are four near-duplicate
variants of one design (src/unnamed/part_000 and three variants inside
src/script.js).  The definitions below translate the state-manipulating
parts of those sources; DOM rendering and audio playback are external
side effects with no bearing on the modelled state and are omitted.
-/

/-- Configuration constant ticksPerSecond (part_000 CONFIG, value 20). -/
def ticksPerSecond : ℕ := 20

/-- Configuration constant totalTicks (part_000 CONFIG, value 400). -/
def totalTicks : ℕ := 400

/-- Configuration constant pitchRange (part_000 CONFIG, value 25). -/
def pitchRange : ℕ := 25

/-- Instrument registry: ordered list of instrument names (part_000 line 11). -/
def INSTRUMENTS : List String := ["harp", "bass", "guitar", "banjo", "pling"]

/-- Instrument sound-id table embedded in the exported artifact
(part_000 line 202): the i-th entry is the sound id of instrument i. -/
def soundIds : List String :=
  ["note.harp", "note.bass", "note.guitar", "note.banjo", "note.pling"]

/-- One stored note: an element of the songData array
(part_000 line 16: array of records with tick, inst, pitch fields). -/
structure Note where
  tick : ℕ
  pitch : ℕ
  inst : ℕ
deriving DecidableEq, Repr

/-- Predicate used by toggleNote's findIndex call
(part_000 line 76: n.tick === tick and n.pitch === pitch). -/
def noteMatch (t p : ℕ) (n : Note) : Bool :=
  n.tick == t && n.pitch == p

/-- Note store mutation toggleNote (part_000 lines 75-90): find the first
index whose note matches (tick, pitch); if found, splice it out, otherwise
push a new note with the selected instrument onto the end. -/
def toggleNote (t p i : ℕ) (l : List Note) : List Note :=
  match l.findIdx? (noteMatch t p) with
  | some idx => l.eraseIdx idx
  | none     => l ++ [⟨t, p, i⟩]

/-- Occupancy of a grid cell: the store contains some note at (t, p). -/
def hasNoteAt (l : List Note) (t p : ℕ) : Bool :=
  l.any (noteMatch t p)

/-- Comparator of the export sort (part_000 line 190:
songData.sort by a.tick - b.tick, ascending by tick). -/
def tickLE (a b : Note) : Prop := a.tick ≤ b.tick

instance : DecidableRel tickLE :=
  fun a b => inferInstanceAs (Decidable (a.tick ≤ b.tick))

instance : IsTotal Note tickLE :=
  ⟨fun a b => Nat.le_total a.tick b.tick⟩

instance : IsTrans Note tickLE :=
  ⟨fun _ _ _ => Nat.le_trans⟩

/-- Chronological sort of the note store performed by the export
(part_000 line 190).  JavaScript's Array.prototype.sort is stable, so it is
modelled by the stable insertion sort on the tick comparator. -/
def sortByTick (l : List Note) : List Note :=
  l.insertionSort tickLE

/-- Data list of the exported artifact (part_000 line 193): one triple
per stored note, in the order of the sorted store. -/
def exportData (l : List Note) : List (ℕ × ℕ × ℕ) :=
  (sortByTick l).map (fun n => (n.tick, n.inst, n.pitch))

/-- Pitch index to playback pitch factor, the expression
Math.pow(2, (pitchIndex - 12) / 12) used by the exported query
(part_000 line 207) and by generateBedrockScript (script.js line 176). -/
noncomputable def mcPitch (p : ℕ) : ℝ :=
  (2 : ℝ) ^ (((p : ℝ) - 12) / 12)

/-- One entry returned by the artifact's query: a sound id and a
playback pitch factor (part_000 lines 205-208). -/
structure PlayableNote where
  sound : String
  pitch : ℝ

/-- Query method getNotesAt of the exported artifact (part_000 lines
204-209): filter the data triples by tick, then map an instrument index to
its sound id and a pitch index through the pitch formula. -/
noncomputable def getNotesAt (data : List (ℕ × ℕ × ℕ)) (tick : ℕ) :
    List PlayableNote :=
  (data.filter (fun n => n.1 == tick)).map
    (fun n => ⟨soundIds.getD n.2.1 "", mcPitch n.2.2⟩)

/-- Identifier drawn by generateFile (part_000 line 186):
Math.floor(Math.random() * 900) + 100, where the random source r is a
value with 0 <= r < 1. -/
def musicId (r : ℚ) : ℤ := ⌊r * 900⌋ + 100

/-- Identifier drawn by generateBedrockScript (script.js line 161):
Math.floor(Math.random() * 1000) + 1. -/
def bedrockFileId (r : ℚ) : ℤ := ⌊r * 1000⌋ + 1

/-- Suggested download filename (part_000 line 219: music then the id,
with the .js extension forced). -/
def musicFileName (id : ℤ) : String :=
  "music" ++ toString id ++ ".js"

/-- Exported artifact: the fields of the generated Music module
(part_000 lines 199-210). -/
structure Artifact where
  id : ℤ
  speed : ℚ
  instruments : List String
  data : List (ℕ × ℕ × ℕ)

/-- Export generator generateFile (part_000 lines 185-210): draw an id,
sort the store chronologically, and embed the id, the speed, the
instrument sound-id table and the triple list. -/
def generateFile (r : ℚ) (speed : ℚ) (l : List Note) : Artifact :=
  ⟨musicId r, speed, soundIds, exportData l⟩

/-- Core mutable state surrounding the note store (part_000 lines 16-18). -/
structure CoreState where
  songData : List Note
  currentTick : ℕ
  isPlaying : Bool
deriving DecidableEq, Repr

/-- Effect of a generateFile call on the core state (part_000 line 190):
songData.sort mutates the store in place; no other state is touched. -/
def generateFileEffect (s : CoreState) : CoreState :=
  { s with songData := sortByTick s.songData }

/-- Speed input as read by parseFloat: some value, or none when the input
text is not numeric (parseFloat returns NaN). -/
def jsOrDefault (v : Option ℚ) (d : ℚ) : ℚ :=
  match v with
  | none => d
  | some x => if x = 0 then d else x

/-- Effective playback speed (part_000 line 104): parseFloat of the speed
input, with the JavaScript or-operator falling back to 1.0 on the falsy
values NaN and 0.  A negative parse result is truthy and is kept. -/
def playSpeed (input : Option ℚ) : ℚ := jsOrDefault input 1

/-- Interval period in milliseconds (part_000 line 105):
(1000 / ticksPerSecond) / speed. -/
def msPerTick (input : Option ℚ) : ℚ :=
  (1000 / (ticksPerSecond : ℚ)) / playSpeed input

/-- Transport state: the playback tick counter and flag (part_000 lines
17-18), plus the log of ticks passed to updateUI callbacks, newest first,
so that emitted UI updates can be counted and inspected. -/
structure Transport where
  currentTick : ℕ
  isPlaying : Bool
  uiLog : List ℕ
deriving DecidableEq, Repr

/-- UI-update callback updateUI (part_000 lines 133-147): records the
currentTick it displays. -/
def updateUI (s : Transport) : Transport :=
  { s with uiLog := s.currentTick :: s.uiLog }

/-- Transition play (part_000 lines 100-102, state part): no-op when
already playing, otherwise set isPlaying and schedule the interval. -/
def play (s : Transport) : Transport :=
  if s.isPlaying then s else { s with isPlaying := true }

/-- Transition pause (part_000 lines 122-125): clear the flag and cancel
the interval. -/
def pause (s : Transport) : Transport :=
  { s with isPlaying := false }

/-- Transition stop (part_000 lines 127-131): pause, reset currentTick to
0, then emit one UI update. -/
def stop (s : Transport) : Transport :=
  updateUI { pause s with currentTick := 0 }

/-- One firing of the scheduled interval callback (part_000 lines
107-119): it can only fire while an interval is scheduled, that is while
playing.  If currentTick has reached totalTicks it calls stop and returns;
otherwise it triggers the preview sounds (external effect), emits a UI
update with the current tick, and increments currentTick. -/
def tickAdvance (s : Transport) : Transport :=
  if s.isPlaying then
    if totalTicks ≤ s.currentTick then stop s
    else { updateUI s with currentTick := s.currentTick + 1 }
  else s

/-- Scrubber input handler (part_000 lines 170-176): remember whether
playing, pause if so, set currentTick to floor of value / 100 * totalTicks
for a slider value in [0, 100], emit a UI update, resume if it was
playing. -/
def seek (v : ℚ) (s : Transport) : Transport :=
  let wasPlaying := s.isPlaying
  let s1 := if wasPlaying then pause s else s
  let s2 := updateUI
    { s1 with currentTick := (⌊v / 100 * (totalTicks : ℚ)⌋).toNat }
  if wasPlaying then play s2 else s2

/-- Transport state at page load: stopped at tick 0, nothing emitted. -/
def initT : Transport := ⟨0, false, []⟩

/-- Iterated interval firings: advanceN n s performs n successive
scheduled tick-advances starting from state s. -/
def advanceN : ℕ → Transport → Transport
  | 0, s => s
  | n + 1, s => advanceN n (tickAdvance s)

/-- Labels of the externally triggered transport operations. -/
inductive TOp where
  | play : TOp
  | pause : TOp
  | stop : TOp
  | advance : TOp
  | seek : ℚ → TOp

/-- Interpretation of one transport operation. -/
def applyOp (s : Transport) : TOp → Transport
  | .play => play s
  | .pause => pause s
  | .stop => stop s
  | .advance => tickAdvance s
  | .seek v => seek v s

/-- Interpretation of a sequence of transport operations, oldest first. -/
def applyOps (ops : List TOp) (s : Transport) : Transport :=
  ops.foldl applyOp s

/-- Validity of an operation's argument: the scrubber's range input
delivers a value between 0 and 100. -/
def validOp : TOp → Prop
  | .seek v => 0 ≤ v ∧ v ≤ 100
  | _ => True

instance (op : TOp) : Decidable (validOp op) :=
  match op with
  | .play => inferInstanceAs (Decidable True)
  | .pause => inferInstanceAs (Decidable True)
  | .stop => inferInstanceAs (Decidable True)
  | .advance => inferInstanceAs (Decidable True)
  | .seek v => inferInstanceAs (Decidable (0 ≤ v ∧ v ≤ 100))

/-- Scheduler-level state for the double-scheduling question: the
isPlaying flag, the playbackInterval variable holding the last setInterval
handle, the list of handles whose intervals are currently scheduled, and a
counter supplying fresh handles. -/
structure IvState where
  isPlaying : Bool
  stored : Option ℕ
  active : List ℕ
  fresh : ℕ
deriving DecidableEq, Repr

/-- Effect of playbackInterval = setInterval(...): a fresh handle is
scheduled and stored, overwriting the previous value of the variable. -/
def startIv (s : IvState) : IvState :=
  { s with active := s.active ++ [s.fresh],
           stored := some s.fresh,
           fresh := s.fresh + 1 }

/-- Guarded play of part_000 lines 100-107 (also script.js first and
third variants): return at once when already playing, otherwise set the
flag and schedule the interval. -/
def playFixed (s : IvState) : IvState :=
  if s.isPlaying then s else startIv { s with isPlaying := true }

/-- Unguarded play of the second script.js variant (lines 363-368): set
the flag and schedule an interval unconditionally, with no isPlaying
check. -/
def playUnguarded (s : IvState) : IvState :=
  startIv { s with isPlaying := true }

/-- Pause at the scheduler level (script.js lines 393-396): clear the
flag and clearInterval the stored handle only. -/
def pauseIv (s : IvState) : IvState :=
  { s with isPlaying := false,
           active := match s.stored with
                     | some h => s.active.erase h
                     | none => s.active }

/-- Scheduler state at page load. -/
def initIv : IvState := ⟨false, none, [], 0⟩

/-- Unfolding of toggleNote on the empty store: push the new note. -/
theorem toggleNote_nil (t p i : ℕ) : toggleNote t p i [] = [⟨t, p, i⟩] := rfl

/-- Unfolding of toggleNote on a nonempty store: splice out the head when
it matches, otherwise keep the head and continue on the tail. -/
theorem toggleNote_cons (t p i : ℕ) (n : Note) (l : List Note) :
    toggleNote t p i (n :: l) =
      if noteMatch t p n then l else n :: toggleNote t p i l := by
  unfold toggleNote
  rw [List.findIdx?_cons]
  by_cases h : noteMatch t p n
  · simp [h]
  · simp only [h, Bool.false_eq_true, if_false]
    rw [List.findIdx?_succ]
    cases hf : List.findIdx? (noteMatch t p) l with
    | none => simp [hf]
    | some j => simp [hf, List.eraseIdx_cons_succ]

/-- The note pushed by toggleNote matches the toggled cell. -/
theorem noteMatch_self (t p i : ℕ) : noteMatch t p (⟨t, p, i⟩ : Note) = true := by
  simp [noteMatch]

/-- Toggling an unoccupied cell appends the new note at the end. -/
theorem toggleNote_of_not_found (t p i : ℕ) (l : List Note)
    (h : hasNoteAt l t p = false) : toggleNote t p i l = l ++ [⟨t, p, i⟩] := by
  unfold toggleNote
  have hnone : l.findIdx? (noteMatch t p) = none := by
    rw [List.findIdx?_eq_none_iff]
    intro x hx
    simpa using (List.any_eq_false.mp h) x hx
  rw [hnone]

/-- Occupancy of a cell after appending one matching note. -/
theorem hasNoteAt_append_self (l : List Note) (t p i : ℕ) :
    hasNoteAt (l ++ [⟨t, p, i⟩]) t p = true := by
  simp [hasNoteAt, noteMatch]

/-- Toggling twice from an unoccupied cell restores the store: the pushed
note is the first and only match, and splicing it out undoes the push. -/
theorem toggleNote_toggleNote_of_not_found (t p i : ℕ) (l : List Note)
    (h : hasNoteAt l t p = false) :
    toggleNote t p i (toggleNote t p i l) = l := by
  rw [toggleNote_of_not_found t p i l h]
  induction l with
  | nil => simp [toggleNote_nil, toggleNote_cons, noteMatch_self]
  | cons n l ih =>
      have hn : noteMatch t p n = false := by
        have := List.any_eq_false.mp h
        simpa using this n (List.mem_cons_self n l)
      have hl : hasNoteAt l t p = false := by
        simp only [hasNoteAt, List.any_cons, hn, Bool.false_or] at h ⊢
        exact h
      rw [List.cons_append, toggleNote_cons]
      simp [hn, ih hl]

/-- Pairwise distinctness of the (tick, pitch) cells of the stored notes:
the uniqueness invariant of the note store. -/
def cellsDistinct (l : List Note) : Prop :=
  List.Pairwise (fun a b => ¬(a.tick = b.tick ∧ a.pitch = b.pitch)) l

instance (l : List Note) : Decidable (cellsDistinct l) :=
  inferInstanceAs (Decidable (List.Pairwise _ l))

/-- A note matching cell (t, p) forbids, under distinctness with it, any
other note from matching the same cell. -/
theorem noteMatch_eq_false_of_distinct {t p : ℕ} {m b : Note}
    (hm : noteMatch t p m = true)
    (hd : ¬(m.tick = b.tick ∧ m.pitch = b.pitch)) :
    noteMatch t p b = false := by
  simp only [noteMatch, Bool.and_eq_true, beq_iff_eq] at hm
  by_contra hb
  simp only [Bool.not_eq_false, noteMatch, Bool.and_eq_true, beq_iff_eq] at hb
  exact hd ⟨hm.1.trans hb.1.symm, hm.2.trans hb.2.symm⟩

/-- Toggling twice an occupied cell of a store with distinct cells leaves
the cell occupied: the first toggle removes the unique match, the second
pushes a fresh note there. -/
theorem hasNoteAt_toggle_toggle_of_found (t p i : ℕ) (l : List Note)
    (hinv : cellsDistinct l) (h : hasNoteAt l t p = true) :
    hasNoteAt (toggleNote t p i (toggleNote t p i l)) t p = true := by
  induction l with
  | nil => simp [hasNoteAt] at h
  | cons n l ih =>
      by_cases hn : noteMatch t p n = true
      · have hrest : hasNoteAt l t p = false := by
          rw [hasNoteAt, List.any_eq_false]
          intro b hb
          simp [noteMatch_eq_false_of_distinct hn
            ((List.pairwise_cons.mp hinv).1 b hb)]
        rw [toggleNote_cons, if_pos hn, toggleNote_of_not_found t p i l hrest]
        exact hasNoteAt_append_self l t p i
      · have hn' : noteMatch t p n = false := by
          simpa using hn
        have hl : hasNoteAt l t p = true := by
          simp only [hasNoteAt, List.any_cons, hn', Bool.false_or] at h
          exact h
        have step1 : toggleNote t p i (n :: l) = n :: toggleNote t p i l := by
          rw [toggleNote_cons, if_neg (by simp [hn'])]
        have step2 : toggleNote t p i (n :: toggleNote t p i l)
            = n :: toggleNote t p i (toggleNote t p i l) := by
          rw [toggleNote_cons, if_neg (by simp [hn'])]
        rw [step1, step2]
        simp only [hasNoteAt, List.any_cons, hn', Bool.false_or]
        exact ih (List.pairwise_cons.mp hinv).2 hl

/-- A store with an occupied cell is nonempty. -/
theorem length_pos_of_hasNoteAt {l : List Note} {t p : ℕ}
    (h : hasNoteAt l t p = true) : 0 < l.length := by
  rcases List.any_eq_true.mp h with ⟨x, hx, _⟩
  exact List.length_pos.mpr (List.ne_nil_of_mem hx)

/-- Toggling a cell does not touch the notes of other cells: the sublist
of notes not matching (t, p) is unchanged, in content, fields and order. -/
theorem toggleNote_filter (l : List Note) (t p i : ℕ) :
    (toggleNote t p i l).filter (fun n => !(noteMatch t p n))
      = l.filter (fun n => !(noteMatch t p n)) := by
  induction l with
  | nil => simp [toggleNote_nil, noteMatch_self]
  | cons n l ih =>
      rw [toggleNote_cons]
      by_cases hn : noteMatch t p n = true
      · rw [if_pos hn]
        simp [List.filter_cons, hn]
      · have hn' : noteMatch t p n = false := by simpa using hn
        rw [if_neg (by simp [hn'])]
        simp [List.filter_cons, hn', ih]

/-- Toggling removes exactly one note from an occupied cell and adds
exactly one note to an unoccupied one. -/
theorem toggleNote_length (l : List Note) (t p i : ℕ) :
    (toggleNote t p i l).length
      = if hasNoteAt l t p = true then l.length - 1 else l.length + 1 := by
  induction l with
  | nil => simp [toggleNote_nil, hasNoteAt]
  | cons n l ih =>
      rw [toggleNote_cons]
      by_cases hn : noteMatch t p n = true
      · rw [if_pos hn]
        have hocc : hasNoteAt (n :: l) t p = true := by
          simp [hasNoteAt, List.any_cons, hn]
        rw [hocc]
        simp
      · have hn' : noteMatch t p n = false := by simpa using hn
        rw [if_neg (by simp [hn'])]
        have hcons : hasNoteAt (n :: l) t p = hasNoteAt l t p := by
          simp [hasNoteAt, List.any_cons, hn']
        rw [List.length_cons, ih, hcons]
        by_cases h : hasNoteAt l t p = true
        · have hpos := length_pos_of_hasNoteAt h
          simp only [if_pos h, List.length_cons]
          omega
        · simp only [if_neg h, List.length_cons]

/-- Play never moves the tick counter. -/
theorem play_currentTick (s : Transport) :
    (play s).currentTick = s.currentTick := by
  unfold play
  split <;> rfl

/-- One interval firing keeps the tick counter within totalTicks. -/
theorem tickAdvance_tick_le {s : Transport} (h : s.currentTick ≤ totalTicks) :
    (tickAdvance s).currentTick ≤ totalTicks := by
  unfold tickAdvance
  by_cases hp : s.isPlaying = true
  · rw [if_pos hp]
    by_cases hge : totalTicks ≤ s.currentTick
    · rw [if_pos hge]
      simp [stop, pause, updateUI]
    · rw [if_neg hge]
      simp only [updateUI]
      omega
  · rw [if_neg hp]
    exact h

/-- Iterated interval firings keep the tick counter within totalTicks. -/
theorem advanceN_tick_le (n : ℕ) (s : Transport)
    (h : s.currentTick ≤ totalTicks) :
    (advanceN n s).currentTick ≤ totalTicks := by
  induction n generalizing s with
  | zero => exact h
  | succ n ih => exact ih (tickAdvance s) (tickAdvance_tick_le h)

/-- The tick computed by the scrubber stays within totalTicks for slider
values up to 100. -/
theorem seek_tick_le (v : ℚ) (h1 : v ≤ 100) :
    (⌊v / 100 * (totalTicks : ℚ)⌋).toNat ≤ totalTicks := by
  rw [Int.toNat_le]
  have h400 : ((totalTicks : ℕ) : ℚ) = 400 := by norm_num [totalTicks]
  have hle : v / 100 * ((totalTicks : ℕ) : ℚ) ≤ ((totalTicks : ℕ) : ℚ) := by
    rw [h400]
    have hv : v / 100 * 400 = 4 * v := by ring
    rw [hv]
    linarith
  calc ⌊v / 100 * ((totalTicks : ℕ) : ℚ)⌋
      ≤ ⌊((totalTicks : ℕ) : ℚ)⌋ := Int.floor_le_floor hle
    _ = (totalTicks : ℤ) := Int.floor_natCast _

/-- Every valid transport operation keeps the tick counter within
totalTicks. -/
theorem applyOp_tick_le {s : Transport} {op : TOp}
    (h : s.currentTick ≤ totalTicks) (hv : validOp op) :
    (applyOp s op).currentTick ≤ totalTicks := by
  cases op with
  | play =>
      simp only [applyOp, play]
      split
      · exact h
      · exact h
  | pause => exact h
  | stop => simp [applyOp, stop, pause, updateUI]
  | advance => exact tickAdvance_tick_le h
  | seek v =>
      obtain ⟨_h0, h1⟩ := hv
      have hb := seek_tick_le v h1
      simp only [applyOp, seek]
      split_ifs <;> exact hb

/-- Every valid operation sequence keeps the tick counter within
totalTicks. -/
theorem applyOps_tick_le (ops : List TOp) (s : Transport)
    (h : s.currentTick ≤ totalTicks) (hv : ∀ op ∈ ops, validOp op) :
    (applyOps ops s).currentTick ≤ totalTicks := by
  induction ops generalizing s with
  | nil => exact h
  | cons op ops ih =>
      exact ih (applyOp s op)
        (applyOp_tick_le h (hv op (List.mem_cons_self op ops)))
        (fun o ho => hv o (List.mem_cons_of_mem op ho))

/-- Sortedness of the export sort. -/
theorem sortByTick_sorted (l : List Note) :
    List.Sorted tickLE (sortByTick l) :=
  List.sorted_insertionSort tickLE l

/-- The export sort permutes the store. -/
theorem sortByTick_perm (l : List Note) : (sortByTick l).Perm l :=
  List.perm_insertionSort tickLE l

/-- Occupancy of a cell is invariant under permutation of the store. -/
theorem hasNoteAt_of_perm {l1 l2 : List Note} (h : l1.Perm l2) (t p : ℕ) :
    hasNoteAt l1 t p = hasNoteAt l2 t p := by
  unfold hasNoteAt
  cases hb : l2.any (noteMatch t p) with
  | true =>
      rcases List.any_eq_true.mp hb with ⟨x, hx, hmx⟩
      exact List.any_eq_true.mpr ⟨x, h.mem_iff.mpr hx, hmx⟩
  | false =>
      rw [List.any_eq_false] at hb ⊢
      intro x hx
      exact hb x (h.mem_iff.mp hx)

/-- Value of the pitch formula at the center index 12. -/
theorem mcPitch_at_twelve : mcPitch 12 = 1 := by
  unfold mcPitch
  norm_num

/-- Value of the pitch formula at the bottom index 0. -/
theorem mcPitch_at_zero : mcPitch 0 = 1 / 2 := by
  unfold mcPitch
  norm_num

/-- Value of the pitch formula at the top index 24. -/
theorem mcPitch_at_twentyfour : mcPitch 24 = 2 := by
  unfold mcPitch
  norm_num

/-- Claim C1: for every note store, the export's data field holds one
triple (tick, instrumentIndex, pitchIndex) per stored note, sorted by tick
ascending; on the store holding exactly the notes (tick 0, pitch 12,
instrument 0) and (tick 5, pitch 0, instrument 1), in either insertion
order and for any speed and random draw, the artifact's data equals
[[0,0,12],[5,1,0]], and the query at tick 0 returns exactly one entry
whose sound is instrument 0's sound id and whose pitch factor is 1. -/
theorem generateFile_data_spec :
    (∀ l : List Note,
        List.Sorted (fun a b : ℕ × ℕ × ℕ => a.1 ≤ b.1) (exportData l)
        ∧ (exportData l).Perm (l.map (fun n => (n.tick, n.inst, n.pitch))))
    ∧ (∀ r speed : ℚ,
        (generateFile r speed [⟨0, 12, 0⟩, ⟨5, 0, 1⟩]).data
          = [(0, 0, 12), (5, 1, 0)]
        ∧ (generateFile r speed [⟨5, 0, 1⟩, ⟨0, 12, 0⟩]).data
          = [(0, 0, 12), (5, 1, 0)])
    ∧ getNotesAt [(0, 0, 12), (5, 1, 0)] 0 = [⟨"note.harp", 1⟩]
    ∧ soundIds.getD 0 "" = "note.harp" := by
  refine ⟨fun l => ⟨?_, ?_⟩, fun r speed => ⟨rfl, rfl⟩, ?_, rfl⟩
  · rw [exportData, List.Sorted, List.pairwise_map]
    exact sortByTick_sorted l
  · exact (sortByTick_perm l).map _
  · have h : getNotesAt [(0, 0, 12), (5, 1, 0)] 0
        = [⟨"note.harp", mcPitch 12⟩] := rfl
    rw [h, mcPitch_at_twelve]

/-- Claim C9: the pitch mapper is the pure function sending a pitch index
p to 2 raised to (p - 12) / 12, whose value is 1 at index 12, one half at
index 0 and 2 at index 24, and every entry returned by the artifact's
query carries exactly this function of its pitch index. -/
theorem mcPitch_formula_spec :
    mcPitch 12 = 1 ∧ mcPitch 0 = 1 / 2 ∧ mcPitch 24 = 2
    ∧ (∀ p : ℕ, mcPitch p = (2 : ℝ) ^ (((p : ℝ) - 12) / 12))
    ∧ (∀ (data : List (ℕ × ℕ × ℕ)) (t : ℕ),
        (getNotesAt data t).map (fun e => e.pitch)
          = (data.filter (fun n => n.1 == t)).map (fun n => mcPitch n.2.2)) := by
  refine ⟨mcPitch_at_twelve, mcPitch_at_zero, mcPitch_at_twentyfour,
    fun p => rfl, fun data t => ?_⟩
  rw [getNotesAt, List.map_map]
  rfl

/-- Claim C2 counterexample: toggling twice a cell that already holds a
note does not leave the cell empty: the first toggle removes the note and
the second inserts a fresh one, so a note is present at (t, p)
afterwards, refuting the claim that after any double toggle the store has
no note at (t, p). -/
theorem toggleNote_twice_occupied_cex :
    hasNoteAt (toggleNote 3 4 0 (toggleNote 3 4 0 [⟨3, 4, 1⟩])) 3 4 = true := by
  decide

/-- Claim C2 amended: on a store whose notes occupy pairwise distinct
cells, toggling (t, p, i) twice preserves whether a note is present at
(t, p); in particular, when the cell was unoccupied, the double toggle
returns the store exactly unchanged, hence with no note at (t, p). -/
theorem toggleNote_twice_occupancy (l : List Note) (t p i : ℕ)
    (hinv : cellsDistinct l) :
    hasNoteAt (toggleNote t p i (toggleNote t p i l)) t p = hasNoteAt l t p
    ∧ (hasNoteAt l t p = false → toggleNote t p i (toggleNote t p i l) = l) := by
  constructor
  · by_cases h : hasNoteAt l t p = true
    · rw [h, hasNoteAt_toggle_toggle_of_found t p i l hinv h]
    · have h' : hasNoteAt l t p = false := by simpa using h
      rw [h', toggleNote_toggleNote_of_not_found t p i l h', h']
  · exact toggleNote_toggleNote_of_not_found t p i l

/-- Claim C2 witness: on the one-note store at cell (1, 2), double
toggling the unoccupied cell (0, 0) restores the store exactly. -/
theorem toggleNote_twice_occupancy_witness :
    toggleNote 0 0 7 (toggleNote 0 0 7 [⟨1, 2, 3⟩]) = [⟨1, 2, 3⟩] :=
  (toggleNote_twice_occupancy [⟨1, 2, 3⟩] 0 0 7 (by decide)).2 (by decide)

/-- Claim C10: toggling a cell affects only that cell: the notes at other
cells are kept with their fields and relative order (the sublist not
matching (t, p) is unchanged); a remove shrinks the store by exactly one
element, an add grows it by exactly one, and on an unoccupied cell the new
note is appended at the end of the sequence. -/
theorem toggleNote_frame (l : List Note) (t p i : ℕ) :
    (toggleNote t p i l).filter (fun n => !(noteMatch t p n))
      = l.filter (fun n => !(noteMatch t p n))
    ∧ (toggleNote t p i l).length
      = (if hasNoteAt l t p = true then l.length - 1 else l.length + 1)
    ∧ (hasNoteAt l t p = false → toggleNote t p i l = l ++ [⟨t, p, i⟩]) :=
  ⟨toggleNote_filter l t p i, toggleNote_length l t p i,
   toggleNote_of_not_found t p i l⟩

/-- Claim C10 witness: toggling cell (4, 5) of the one-note store at
(1, 1) keeps that note and appends the new note at the end. -/
theorem toggleNote_frame_witness :
    (toggleNote 4 5 2 [⟨1, 1, 1⟩]).filter (fun n => !(noteMatch 4 5 n))
      = [⟨1, 1, 1⟩].filter (fun n => !(noteMatch 4 5 n))
    ∧ toggleNote 4 5 2 [⟨1, 1, 1⟩] = [⟨1, 1, 1⟩] ++ [⟨4, 5, 2⟩] :=
  ⟨(toggleNote_frame [⟨1, 1, 1⟩] 4 5 2).1,
   (toggleNote_frame [⟨1, 1, 1⟩] 4 5 2).2.2 (by decide)⟩

set_option maxRecDepth 100000 in
/-- Claim C3 counterexample: starting the transport at tick 0 and letting
the scheduled interval fire exactly totalTicks times leaves it still
playing with currentTick equal to totalTicks, not stopped at 0: the stop
and reset happen only on the following firing. -/
theorem transport_after_totalTicks_cex :
    (advanceN totalTicks (play initT)).isPlaying = true
    ∧ (advanceN totalTicks (play initT)).currentTick = totalTicks := by
  decide

set_option maxRecDepth 100000 in
/-- Claim C3 amended: currentTick never exceeds totalTicks under iterated
firings; after totalTicks firings from playing at tick 0 the transport is
still playing at tick totalTicks, with exactly totalTicks UI updates
emitted and none at tick totalTicks; the firing number totalTicks plus one
stops it, resets currentTick to 0 and emits one more UI update (logged at
tick 0), for totalTicks plus one updates in all, still none at tick
totalTicks. -/
theorem transport_run_spec :
    (∀ n : ℕ, (advanceN n (play initT)).currentTick ≤ totalTicks)
    ∧ ((advanceN totalTicks (play initT)).isPlaying = true
      ∧ (advanceN totalTicks (play initT)).currentTick = totalTicks
      ∧ (advanceN totalTicks (play initT)).uiLog.length = totalTicks
      ∧ totalTicks ∉ (advanceN totalTicks (play initT)).uiLog
      ∧ (advanceN (totalTicks + 1) (play initT)).isPlaying = false
      ∧ (advanceN (totalTicks + 1) (play initT)).currentTick = 0
      ∧ (advanceN (totalTicks + 1) (play initT)).uiLog.length = totalTicks + 1
      ∧ totalTicks ∉ (advanceN (totalTicks + 1) (play initT)).uiLog) :=
  ⟨fun n => advanceN_tick_le n (play initT) (Nat.zero_le _), by decide⟩

set_option maxRecDepth 100000 in
/-- Claim C5 counterexample: the state reached from the initial transport
by pressing play and letting the interval fire totalTicks times is running
with currentTick equal to totalTicks, refuting the invariant that the
clock is never running at currentTick equal to totalTicks. -/
theorem transport_running_at_total_cex :
    (applyOps (TOp.play :: List.replicate totalTicks TOp.advance) initT).currentTick
      = totalTicks
    ∧ (applyOps (TOp.play :: List.replicate totalTicks TOp.advance) initT).isPlaying
      = true := by
  decide

/-- Claim C5 amended: every state reachable from the initial transport by
play, pause, stop, valid seek and scheduled tick-advance operations has
currentTick between 0 and totalTicks; a running state at currentTick equal
to totalTicks is reachable, and from any such state the next scheduled
advance stops the clock and resets currentTick to 0. -/
theorem transport_tick_bound :
    (∀ ops : List TOp, (∀ op ∈ ops, validOp op) →
        (applyOps ops initT).currentTick ≤ totalTicks)
    ∧ (∀ s : Transport, s.isPlaying = true → s.currentTick = totalTicks →
        (tickAdvance s).currentTick = 0 ∧ (tickAdvance s).isPlaying = false) := by
  constructor
  · intro ops hv
    exact applyOps_tick_le ops initT (Nat.zero_le _) hv
  · intro s hp ht
    have hstop : tickAdvance s = stop s := by
      unfold tickAdvance
      rw [if_pos hp, if_pos (le_of_eq ht.symm)]
    rw [hstop]
    exact ⟨rfl, rfl⟩

/-- Claim C5 witness: a concrete valid operation sequence stays within the
bound, and the advance out of a running state at totalTicks stops at 0. -/
theorem transport_tick_bound_witness :
    (applyOps [TOp.play, TOp.advance, TOp.seek 50] initT).currentTick
      ≤ totalTicks
    ∧ (tickAdvance ⟨totalTicks, true, []⟩).currentTick = 0
    ∧ (tickAdvance ⟨totalTicks, true, []⟩).isPlaying = false :=
  ⟨transport_tick_bound.1 [TOp.play, TOp.advance, TOp.seek 50]
      (by norm_num [validOp]),
   (transport_tick_bound.2 ⟨totalTicks, true, []⟩ rfl rfl).1,
   (transport_tick_bound.2 ⟨totalTicks, true, []⟩ rfl rfl).2⟩

/-- Claim C4: the unguarded play of the second script.js variant, called
twice from the stopped state, schedules two periodic advancers and leaves
both active (the first handle was overwritten and pause can clear only the
stored one), while the guarded play of the other variants schedules
exactly one and is a no-op on its second call. -/
theorem play_unguarded_double_schedule :
    (playUnguarded (playUnguarded initIv)).active = [0, 1]
    ∧ (playUnguarded (playUnguarded initIv)).isPlaying = true
    ∧ (pauseIv (playUnguarded (playUnguarded initIv))).active = [0]
    ∧ (playFixed (playFixed initIv)).active = [0]
    ∧ playFixed (playFixed initIv) = playFixed initIv := by
  decide

/-- Claim C6 counterexample: the export of the first script.js variant
draws its identifier as floor of the random value times 1000, plus 1;
at random value 0 the identifier is 1, outside the range 100 to 999. -/
theorem bedrockFileId_out_of_range_cex :
    bedrockFileId 0 = 1
    ∧ ¬(100 ≤ bedrockFileId 0 ∧ bedrockFileId 0 ≤ 999) := by
  have h : bedrockFileId 0 = 1 := by
    unfold bedrockFileId
    rw [show ((0 : ℚ) * 1000) = (((0 : ℤ) : ℚ)) by norm_num, Int.floor_intCast]
    norm_num
  rw [h]
  omega

/-- Claim C6 amended: for every random source value r in [0, 1), the
identifier drawn by generateFile lies in [100, 999] and the one drawn by
generateBedrockScript lies in [1, 1000], and the suggested filename is
music followed by the identifier with the js extension. -/
theorem musicId_range (r : ℚ) (h0 : 0 ≤ r) (h1 : r < 1) :
    (100 ≤ musicId r ∧ musicId r ≤ 999)
    ∧ (1 ≤ bedrockFileId r ∧ bedrockFileId r ≤ 1000)
    ∧ musicFileName (musicId r) = "music" ++ toString (musicId r) ++ ".js" := by
  have hm0 : (0 : ℤ) ≤ ⌊r * 900⌋ := by
    apply Int.le_floor.mpr
    push_cast
    nlinarith
  have hm1 : ⌊r * 900⌋ < 900 := by
    apply Int.floor_lt.mpr
    push_cast
    nlinarith
  have hb0 : (0 : ℤ) ≤ ⌊r * 1000⌋ := by
    apply Int.le_floor.mpr
    push_cast
    nlinarith
  have hb1 : ⌊r * 1000⌋ < 1000 := by
    apply Int.floor_lt.mpr
    push_cast
    nlinarith
  refine ⟨⟨?_, ?_⟩, ⟨?_, ?_⟩, rfl⟩ <;>
    simp only [musicId, bedrockFileId] <;> omega

/-- Claim C6 witness: at random source value one half the generateFile
identifier is within [100, 999] and the generateBedrockScript identifier
within [1, 1000]. -/
theorem musicId_range_witness :
    (100 ≤ musicId (1 / 2) ∧ musicId (1 / 2) ≤ 999)
    ∧ (1 ≤ bedrockFileId (1 / 2) ∧ bedrockFileId (1 / 2) ≤ 1000)
    ∧ musicFileName (musicId (1 / 2))
      = "music" ++ toString (musicId (1 / 2)) ++ ".js" :=
  musicId_range (1 / 2) (by norm_num) (by norm_num)

/-- Claim C7 counterexample: exporting a store whose notes were inserted
out of tick order changes the store's sequence: the in-place sort reorders
it, so the insertion order is not preserved. -/
theorem generateFile_mutates_order_cex :
    (generateFileEffect ⟨[⟨5, 0, 1⟩, ⟨0, 12, 0⟩], 0, false⟩).songData
      ≠ [⟨5, 0, 1⟩, ⟨0, 12, 0⟩] := by
  decide

/-- Claim C7 amended: an export call leaves the tick counter, the playing
flag, the multiset of stored notes and hence the occupancy of every cell
unchanged, but it sorts the note store's sequence in place by tick, so the
insertion order of the sequence is not preserved in general. -/
theorem generateFile_frame (s : CoreState) :
    (generateFileEffect s).currentTick = s.currentTick
    ∧ (generateFileEffect s).isPlaying = s.isPlaying
    ∧ (generateFileEffect s).songData.Perm s.songData
    ∧ (∀ t p, hasNoteAt (generateFileEffect s).songData t p
        = hasNoteAt s.songData t p) :=
  ⟨rfl, rfl, sortByTick_perm s.songData,
   fun t p => hasNoteAt_of_perm (sortByTick_perm s.songData) t p⟩

/-- Claim C8 counterexample: a negative speed input is truthy, so the
or-fallback keeps it: the effective speed is the negative value and the
computed period is negative, not positive. -/
theorem negative_speed_cex :
    playSpeed (some (-2)) = -2
    ∧ msPerTick (some (-2)) = -25
    ∧ ¬(0 < msPerTick (some (-2))) := by
  refine ⟨rfl, ?_, ?_⟩ <;>
    norm_num [msPerTick, playSpeed, jsOrDefault, ticksPerSecond]

/-- Claim C8 amended: a non-numeric or zero speed input is normalized to
the default 1.0; a nonzero input, including any negative value, is used as
given, and the period (1000 / ticksPerSecond) / speed is positive exactly
when the effective speed is positive and negative when it is negative. -/
theorem playSpeed_spec :
    playSpeed none = 1 ∧ playSpeed (some 0) = 1
    ∧ (∀ x : ℚ, x ≠ 0 → playSpeed (some x) = x)
    ∧ (∀ v : Option ℚ, 0 < playSpeed v → 0 < msPerTick v)
    ∧ (∀ v : Option ℚ, playSpeed v < 0 → msPerTick v < 0) := by
  refine ⟨rfl, by norm_num [playSpeed, jsOrDefault],
    fun x hx => ?_, fun v hv => ?_, fun v hv => ?_⟩
  · simp [playSpeed, jsOrDefault, hx]
  · unfold msPerTick
    apply div_pos ?_ hv
    norm_num [ticksPerSecond]
  · unfold msPerTick
    apply div_neg_of_pos_of_neg ?_ hv
    norm_num [ticksPerSecond]

/-- Claim C8 witness: speed input 2 is kept and yields a positive period;
speed input minus 2 yields a negative period. -/
theorem playSpeed_spec_witness :
    playSpeed (some 2) = 2
    ∧ 0 < msPerTick (some 2)
    ∧ msPerTick (some (-2)) < 0 :=
  ⟨playSpeed_spec.2.2.1 2 (by norm_num),
   playSpeed_spec.2.2.2.1 (some 2) (by norm_num [playSpeed, jsOrDefault]),
   playSpeed_spec.2.2.2.2 (some (-2)) (by norm_num [playSpeed, jsOrDefault])⟩
